import Mathlib

/-!
Verification of the API-key credential engine of this repository
(`src/zenml/models/api_key_models.py`, `src/zenml/zen_stores/schemas/api_key_schemas.py`,
`src/zenml/cli/api_key.py`).

Conventions of the embedding:
* timestamps are integers (seconds); `datetime.now()` / `datetime.utcnow()` is an
  explicit `now` argument; `timedelta(minutes=r)` is `timedeltaMinutes r = 60 * r`;
* the random draws of `secrets.token_hex` and of the bcrypt salt are explicit
  arguments standing for the values produced by the CSPRNG on that call;
* the helpers `b64_encode`/`b64_decode` (from `zenml.utils.string_utils`), the
  pydantic JSON round trip, the `Client` collaborator and the passlib `CryptContext`
  hasher are code this repository calls but whose sources are not under `src/`; they
  are modelled from the spec, and each such definition carries a doc comment saying so.
-/

namespace Zenml

/-- Removes the first list as a leading segment of the second; `none` when the
second list does not start with it. -/
def dropLead : List Char → List Char → Option (List Char)
  | [], l => some l
  | _ :: _, [] => none
  | p :: ps, c :: cs => if p = c then dropLead ps cs else none

/-- Splits a list at the first occurrence of the pattern `pat`, returning the part
before the occurrence and the part after it. -/
def splitFirst (pat : List Char) : List Char → Option (List Char × List Char)
  | [] =>
    match dropLead pat [] with
    | some r => some ([], r)
    | none => none
  | c :: cs =>
    match dropLead pat (c :: cs) with
    | some r => some ([], r)
    | none =>
      match splitFirst pat cs with
      | some (pre, post) => some (c :: pre, post)
      | none => none

/-- Removes the first list as a trailing segment of the second. -/
def dropTail (suf l : List Char) : Option (List Char) :=
  match dropLead suf.reverse l.reverse with
  | some r => some r.reverse
  | none => none

/-- Modelled from the spec: the base64 alphabet of the binary-to-text encoding used
for the bearer token wire format. -/
def b64Table : List Char :=
  "ABCDEFGHIJKLMNOPQRSTUVWXYZabcdefghijklmnopqrstuvwxyz0123456789+/".data

/-- The base64 character of a six-bit value. -/
def b64Char (n : Nat) : Char := b64Table.getD n 'A'

def b64IndexAux (c : Char) : List Char → Nat → Option Nat
  | [], _ => none
  | x :: xs, i => if x = c then some i else b64IndexAux c xs (i + 1)

/-- The six-bit value of a base64 character; `none` for characters outside the alphabet. -/
def b64Index (c : Char) : Option Nat := b64IndexAux c b64Table 0

/-- Modelled from the spec: base64 encoding of a byte sequence (three bytes to four
characters, `=` padding), as performed by `zenml.utils.string_utils.b64_encode`. -/
def b64EncodeBytes : List Nat → List Char
  | [] => []
  | [a] => [b64Char (a / 4), b64Char (a % 4 * 16), '=', '=']
  | [a, b] => [b64Char (a / 4), b64Char (a % 4 * 16 + b / 16), b64Char (b % 16 * 4), '=']
  | a :: b :: c :: rest =>
    b64Char (a / 4) :: b64Char (a % 4 * 16 + b / 16) ::
      b64Char (b % 16 * 4 + c / 64) :: b64Char (c % 64) :: b64EncodeBytes rest

/-- Modelled from the spec: base64 decoding of a character sequence back to bytes,
as performed by `zenml.utils.string_utils.b64_decode`; `none` on any structural
failure (bad length, character outside the alphabet). -/
def b64DecodeBytes : List Char → Option (List Nat)
  | [] => some []
  | c1 :: c2 :: c3 :: c4 :: rest =>
    if c3 = '=' then
      if c4 = '=' ∧ rest = [] then
        match b64Index c1, b64Index c2 with
        | some n1, some n2 => some [n1 * 4 + n2 / 16]
        | _, _ => none
      else none
    else if c4 = '=' then
      if rest = [] then
        match b64Index c1, b64Index c2, b64Index c3 with
        | some n1, some n2, some n3 => some [n1 * 4 + n2 / 16, n2 % 16 * 16 + n3 / 4]
        | _, _, _ => none
      else none
    else
      match b64Index c1, b64Index c2, b64Index c3, b64Index c4, b64DecodeBytes rest with
      | some n1, some n2, some n3, some n4, some bs =>
        some ((n1 * 4 + n2 / 16) :: (n2 % 16 * 16 + n3 / 4) :: (n3 % 4 * 64 + n4) :: bs)
      | _, _, _, _, _ => none
  | _ => none

/-- Modelled from the spec: `zenml.utils.string_utils.b64_encode`, base64 of the
UTF-8 bytes of a string. The byte model `Char.toNat` is exact on the ASCII range,
which covers every valid token payload (uuid strings and `token_hex` secrets). -/
def b64_encode (s : String) : String :=
  String.mk (b64EncodeBytes (s.data.map Char.toNat))

/-- Modelled from the spec: `zenml.utils.string_utils.b64_decode`, inverse of
`b64_encode`; `none` on any structural failure of the base64 layer. -/
def b64_decode (s : String) : Option String :=
  match b64DecodeBytes s.data with
  | some bs => some (String.mk (bs.map Char.ofNat))
  | none => none

/-- The leading literal of the JSON payload `\x7b"id": "`. -/
def jsonPre : String := "\x7b\"id\": \""

/-- The literal between the id and the key `", "key": "`. -/
def jsonMid : String := "\", \"key\": \""

/-- The trailing literal `"\x7d`. -/
def jsonSuf : String := "\"\x7d"

/-- Modelled from the spec: the UTF-8 JSON object `\x7b"id": "<uuid-string>",
"key": "<raw-secret-string>"\x7d` produced by pydantic for the `APIKey` model. -/
def apiKeyJson (i k : String) : String :=
  jsonPre ++ (i ++ (jsonMid ++ (k ++ jsonSuf)))

/-- Modelled from the spec: parsing that JSON object back into its two fields, as
pydantic `parse_raw` does; `none` on any malformed payload. -/
def parseApiKeyJson (s : String) : Option (String × String) :=
  match dropLead jsonPre.data s.data with
  | none => none
  | some r1 =>
    match splitFirst jsonMid.data r1 with
    | none => none
    | some (idc, r2) =>
      match dropTail jsonSuf.data r2 with
      | none => none
      | some kc => some (String.mk idc, String.mk kc)

/-- The encoded model for API keys (`class APIKey` in `api_key_models.py`): the id
and the raw secret exchanged with the caller. -/
structure APIKey where
  id : String
  key : String
deriving DecidableEq

/-- `APIKey.encode`: base64 of the JSON serialization of the pair. -/
def APIKey.encode (a : APIKey) : String := b64_encode (apiKeyJson a.id a.key)

/-- `APIKey.decode_api_key`: decodes the base64 string and parses the JSON; any
exception of either step becomes the single `ValueError("Invalid API key.")`. -/
def APIKey.decode_api_key (encoded_key : String) : Except String APIKey :=
  match (b64_decode encoded_key).bind parseApiKeyJson with
  | some (i, k) => Except.ok { id := i, key := k }
  | none => Except.error "Invalid API key."

/-- The bcrypt hash format marker. -/
def bcryptIdent : String := "$2b$"

/-- Modelled from the spec: `SecretHasher.hash`, the salted one-way hash produced by
the passlib `CryptContext` bcrypt scheme (`APIKeySchema._get_hashed_key`). The salt
is the per-call random component; the payload records which secret the hash was made
from, which in the model plays the role of the one-way digest. -/
def hashSecret (secret salt : String) : String :=
  bcryptIdent ++ salt ++ "$" ++ secret

/-- Modelled from the spec: `SecretHasher.verify` (`CryptContext.verify`). It
accepts the presented secret only against a well-formed hash of that same secret;
against a malformed or empty hash value it returns `false` and never raises. -/
def verifySecret (secret hashValue : String) : Bool :=
  match dropLead bcryptIdent.data hashValue.data with
  | none => false
  | some rest =>
    match splitFirst ['$'] rest with
    | some (_, payload) => decide (payload = secret.data)
    | none => false

/-- `timedelta(minutes=r)` in seconds. -/
def timedeltaMinutes (r : Int) : Int := 60 * r

/-- Response model for API keys (`APIKeyResponseModel`), restricted to the fields
the credential engine reads. `key` carries the encoded token right after creation
or rotation and is `none` otherwise. -/
structure APIKeyResponseModel where
  id : String
  name : String
  description : String
  key : Option String
  active : Bool
  retain_period_minutes : Int
  last_used : Int
  last_rotated : Int

/-- `APIKeyResponseModel.set_key`: stores the encoded bearer token built from the
record id and the raw key value. -/
def APIKeyResponseModel.set_key (m : APIKeyResponseModel) (key : String) :
    APIKeyResponseModel :=
  { m with key := some (APIKey.encode { id := m.id, key := key }) }

/-- Internal response model (`APIKeyInternalResponseModel`): additionally carries
the previous hash; on this variant `key` holds the current hash. -/
structure APIKeyInternalResponseModel extends APIKeyResponseModel where
  previous_key : Option String

/-- `APIKeyInternalResponseModel.verify_key`: verifies a presented key against the
stored hashed key(s), always executing both hash verifications (against the dummy
empty hash when a slot is not usable) to protect against response discrepancy
attacks; `now` stands for `datetime.now()`. -/
def APIKeyInternalResponseModel.verify_key (m : APIKeyInternalResponseModel)
    (now : Int) (key : String) : Bool :=
  let key_hash : String :=
    match m.key with
    | some h => if m.active then h else ""
    | none => ""
  let result := verifySecret key key_hash
  let previous_hash : String :=
    match m.previous_key with
    | some ph =>
      if m.active ∧ 0 < m.retain_period_minutes then
        if now - m.last_rotated < timedeltaMinutes m.retain_period_minutes then ph else ""
      else ""
    | none => ""
  let previous_result := verifySecret key previous_hash
  result || previous_result

/-- Modelled from the spec: `RotationPolicy.previous_secret_is_valid(record, now)`,
true iff the record is active, the retain period is positive and `now` is within
the grace window after the last rotation. Stated in the spec's words, to be
compared against the behaviour of `verify_key`. -/
def previous_secret_is_valid (m : APIKeyInternalResponseModel) (now : Int) : Bool :=
  m.active && decide (0 < m.retain_period_minutes) &&
    decide (now - m.last_rotated < timedeltaMinutes m.retain_period_minutes)

/-- Rotate request model (`APIKeyRotateRequestModel`); the retain period defaults
to zero minutes. -/
structure APIKeyRotateRequestModel where
  retain_period_minutes : Int := 0

/-- Update model (`APIKeyUpdateModel` after the `update_model` decorator): every
field is optional and absent fields are not applied. -/
structure APIKeyUpdateModel where
  name : Option String
  description : Option String
  active : Option Bool

/-- SQL row for API keys (`APIKeySchema`), restricted to the columns the engine
reads and writes; `key` holds the current hash, never the plaintext. -/
structure APIKeySchema where
  id : String
  name : String
  description : String
  key : String
  previous_key : Option String
  retain_period : Int
  active : Bool
  last_used : Int
  last_rotated : Int
  created : Int
  updated : Int

/-- `APIKeySchema.to_internal_model`: the internal projection that exposes the
hash columns to the verifier. -/
def APIKeySchema.to_internal_model (s : APIKeySchema) : APIKeyInternalResponseModel :=
  { id := s.id
    name := s.name
    description := s.description
    key := some s.key
    previous_key := s.previous_key
    active := s.active
    retain_period_minutes := s.retain_period
    last_used := s.last_used
    last_rotated := s.last_rotated }

/-- `APIKeySchema.update`: applies an `APIKeyUpdateModel`, copying only the truthy
supplied fields (`active` is applied whenever it is not `None`) and refreshing the
`updated` bookkeeping column; `now` stands for `datetime.utcnow()`. -/
def APIKeySchema.update (s : APIKeySchema) (u : APIKeyUpdateModel) (now : Int) :
    APIKeySchema :=
  let s1 :=
    match u.name with
    | some n => if n = "" then s else { s with name := n }
    | none => s
  let s2 :=
    match u.description with
    | some d => if d = "" then s1 else { s1 with description := d }
    | none => s1
  let s3 :=
    match u.active with
    | some a => { s2 with active := a }
    | none => s2
  { s3 with updated := now }

/-- `APIKeySchema.rotate`: moves the current hash into the previous slot, stores
the requested retain period, hashes a fresh secret into the current slot and stamps
`last_rotated`; `now` stands for `datetime.utcnow()`, `newKey` for the
`token_hex(32)` draw and `salt` for the bcrypt salt draw of this call. -/
def APIKeySchema.rotate (s : APIKeySchema) (rotate_request : APIKeyRotateRequestModel)
    (now : Int) (newKey salt : String) : APIKeySchema × String :=
  ({ s with
      updated := now
      previous_key := some s.key
      retain_period := rotate_request.retain_period_minutes
      key := hashSecret newKey salt
      last_rotated := now },
    newKey)

/-- Modelled from the spec: the client collaborator operation
`Client.rotate_api_key(name_id_or_prefix)` as the CLI invokes it — with no rotate
request argument, so the `APIKeyRotateRequestModel` default retain period of zero
minutes is used. -/
def clientRotateApiKeyNoRetain (s : APIKeySchema) (now : Int) (newKey salt : String) :
    APIKeySchema × String :=
  s.rotate {} now newKey salt

/-- The CLI command `rotate_api_key(name_or_id, retain)` in `cli/api_key.py`: it
accepts the `--retain` option but calls the client without forwarding it. -/
def rotate_api_key (retain : Int) (s : APIKeySchema) (now : Int) (newKey salt : String) :
    APIKeySchema × String :=
  clientRotateApiKeyNoRetain s now newKey salt

/-- A concrete internal record with both hash slots set, for witnesses. -/
def sampleInternal : APIKeyInternalResponseModel :=
  { id := "k1"
    name := "ci"
    description := ""
    key := some (hashSecret "S1" "ab")
    active := true
    retain_period_minutes := 10
    last_used := 0
    last_rotated := 0
    previous_key := some (hashSecret "S0" "cd") }

/-- A concrete deactivated internal record, for witnesses. -/
def inactiveInternal : APIKeyInternalResponseModel :=
  { id := "k2"
    name := "svc"
    description := ""
    key := some (hashSecret "T1" "ab")
    active := false
    retain_period_minutes := 10
    last_used := 0
    last_rotated := 0
    previous_key := some (hashSecret "T0" "cd") }

/-- A concrete internal record with no hash in either slot, for witnesses. -/
def emptyInternal : APIKeyInternalResponseModel :=
  { id := "k3"
    name := "n"
    description := ""
    key := none
    active := true
    retain_period_minutes := 0
    last_used := 0
    last_rotated := 0
    previous_key := none }

/-- A concrete stored row holding the hash of the secret `S1`, for witnesses. -/
def sampleSchema : APIKeySchema :=
  { id := "k1"
    name := "ci"
    description := ""
    key := hashSecret "S1" "ab"
    previous_key := none
    retain_period := 0
    active := true
    last_used := 0
    last_rotated := 0
    created := 0
    updated := 0 }

/-- A concrete response model, for witnesses. -/
def sampleResponse : APIKeyResponseModel :=
  { id := "k1"
    name := "ci"
    description := ""
    key := none
    active := true
    retain_period_minutes := 0
    last_used := 0
    last_rotated := 0 }

theorem dropLead_append (p r : List Char) : dropLead p (p ++ r) = some r := by
  induction p with
  | nil => rfl
  | cons c cs ih => simp [dropLead, ih]

theorem splitFirst_boundary (hc : Char) (pt pre post : List Char)
    (h : ∀ c ∈ pre, c ≠ hc) :
    splitFirst (hc :: pt) (pre ++ hc :: (pt ++ post)) = some (pre, post) := by
  induction pre with
  | nil =>
    have hd : dropLead (hc :: pt) (hc :: (pt ++ post)) = some post := by
      simpa [dropLead] using dropLead_append pt post
    simp [splitFirst, hd]
  | cons d pre' ih =>
    have hdne : hc ≠ d := fun he => (h d (by simp)) he.symm
    have ih' := ih (fun c hcmem => h c (by simp [hcmem]))
    simp [splitFirst, dropLead, hdne, ih']

theorem dropTail_append (suf k : List Char) : dropTail suf (k ++ suf) = some k := by
  simp [dropTail, List.reverse_append, dropLead_append]

theorem b64Index_b64Char : ∀ n, n < 64 → b64Index (b64Char n) = some n := by decide

theorem b64Char_ne_pad : ∀ n, n < 64 → b64Char n ≠ '=' := by decide

theorem b64DecodeBytes_encode : ∀ bs : List Nat, (∀ b ∈ bs, b < 256) →
    b64DecodeBytes (b64EncodeBytes bs) = some bs
  | [], _ => by simp [b64EncodeBytes, b64DecodeBytes]
  | [a], h => by
    have ha : a < 256 := h a (by simp)
    have h1 : b64Index (b64Char (a / 4)) = some (a / 4) := b64Index_b64Char _ (by omega)
    have h2 : b64Index (b64Char (a % 4 * 16)) = some (a % 4 * 16) :=
      b64Index_b64Char _ (by omega)
    simp [b64EncodeBytes, b64DecodeBytes, h1, h2]
    omega
  | [a, b], h => by
    have ha : a < 256 := h a (by simp)
    have hb : b < 256 := h b (by simp)
    have h1 : b64Index (b64Char (a / 4)) = some (a / 4) := b64Index_b64Char _ (by omega)
    have h2 : b64Index (b64Char (a % 4 * 16 + b / 16)) = some (a % 4 * 16 + b / 16) :=
      b64Index_b64Char _ (by omega)
    have h3 : b64Index (b64Char (b % 16 * 4)) = some (b % 16 * 4) :=
      b64Index_b64Char _ (by omega)
    have hne : b64Char (b % 16 * 4) ≠ '=' := b64Char_ne_pad _ (by omega)
    simp [b64EncodeBytes, b64DecodeBytes, hne, h1, h2, h3]
    omega
  | a :: b :: c :: rest, h => by
    have ha : a < 256 := h a (by simp)
    have hb : b < 256 := h b (by simp)
    have hc : c < 256 := h c (by simp)
    have h1 : b64Index (b64Char (a / 4)) = some (a / 4) := b64Index_b64Char _ (by omega)
    have h2 : b64Index (b64Char (a % 4 * 16 + b / 16)) = some (a % 4 * 16 + b / 16) :=
      b64Index_b64Char _ (by omega)
    have h3 : b64Index (b64Char (b % 16 * 4 + c / 64)) = some (b % 16 * 4 + c / 64) :=
      b64Index_b64Char _ (by omega)
    have h4 : b64Index (b64Char (c % 64)) = some (c % 64) := b64Index_b64Char _ (by omega)
    have hne3 : b64Char (b % 16 * 4 + c / 64) ≠ '=' := b64Char_ne_pad _ (by omega)
    have hne4 : b64Char (c % 64) ≠ '=' := b64Char_ne_pad _ (by omega)
    have ih := b64DecodeBytes_encode rest (fun x hx => h x (by simp [hx]))
    simp [b64EncodeBytes, b64DecodeBytes, hne3, hne4, h1, h2, h3, h4, ih]
    omega

theorem b64_decode_encode (s : String) (h : ∀ c ∈ s.data, c.toNat < 128) :
    b64_decode (b64_encode s) = some s := by
  have hb : ∀ b ∈ s.data.map Char.toNat, b < 256 := by
    intro b hbm
    rcases List.mem_map.1 hbm with ⟨c, hcm, rfl⟩
    exact lt_trans (h c hcm) (by norm_num)
  have hdec :
      b64DecodeBytes (b64EncodeBytes (s.data.map Char.toNat)) = some (s.data.map Char.toNat) :=
    b64DecodeBytes_encode _ hb
  have hmap : (s.data.map Char.toNat).map Char.ofNat = s.data := by
    rw [List.map_map]
    have : ∀ c ∈ s.data, (Char.ofNat ∘ Char.toNat) c = id c := by
      intro c _
      simp [Char.ofNat_toNat]
    rw [List.map_congr_left this, List.map_id]
  simp only [b64_encode, b64_decode, hdec, hmap]

theorem parse_apiKeyJson (i k : String) (hi : ∀ c ∈ i.data, c ≠ '"') :
    parseApiKeyJson (apiKeyJson i k) = some (i, k) := by
  have hdata : (apiKeyJson i k).data =
      jsonPre.data ++ (i.data ++ ('"' :: ((", \"key\": \"").data ++ (k.data ++ jsonSuf.data)))) := by
    simp [apiKeyJson, String.data_append]
    rfl
  have h1 : dropLead jsonPre.data (apiKeyJson i k).data =
      some (i.data ++ ('"' :: ((", \"key\": \"").data ++ (k.data ++ jsonSuf.data)))) := by
    rw [hdata]; exact dropLead_append _ _
  have h2 : splitFirst jsonMid.data
      (i.data ++ ('"' :: ((", \"key\": \"").data ++ (k.data ++ jsonSuf.data)))) =
      some (i.data, k.data ++ jsonSuf.data) := by
    have : jsonMid.data = '"' :: (", \"key\": \"").data := rfl
    rw [this]
    exact splitFirst_boundary '"' _ _ _ hi
  have h3 : dropTail jsonSuf.data (k.data ++ jsonSuf.data) = some k.data :=
    dropTail_append _ _
  simp only [parseApiKeyJson, h1, h2, h3]

/-- Shared helper: decoding an encoded key recovers the id and raw secret, for
ASCII payloads whose id contains no quote character. -/
theorem decode_encode_aux (i k : String)
    (hi : ∀ c ∈ i.data, c.toNat < 128 ∧ c ≠ '"')
    (hk : ∀ c ∈ k.data, c.toNat < 128) :
    APIKey.decode_api_key (APIKey.encode { id := i, key := k }) =
      Except.ok { id := i, key := k } := by
  have hascii : ∀ c ∈ (apiKeyJson i k).data, c.toNat < 128 := by
    have hpre : ∀ c ∈ jsonPre.data, c.toNat < 128 := by decide
    have hmid : ∀ c ∈ jsonMid.data, c.toNat < 128 := by decide
    have hsuf : ∀ c ∈ jsonSuf.data, c.toNat < 128 := by decide
    intro c hcm
    have hsplit : c ∈ jsonPre.data ∨ c ∈ i.data ∨ c ∈ jsonMid.data ∨
        c ∈ k.data ∨ c ∈ jsonSuf.data := by
      simp only [apiKeyJson, String.data_append, List.mem_append] at hcm
      tauto
    rcases hsplit with hc | hc | hc | hc | hc
    · exact hpre c hc
    · exact (hi c hc).1
    · exact hmid c hc
    · exact hk c hc
    · exact hsuf c hc
  have hdec : b64_decode (b64_encode (apiKeyJson i k)) = some (apiKeyJson i k) :=
    b64_decode_encode _ hascii
  have hparse : parseApiKeyJson (apiKeyJson i k) = some (i, k) :=
    parse_apiKeyJson i k (fun c hc => (hi c hc).2)
  simp only [APIKey.decode_api_key, APIKey.encode, hdec, Option.bind, hparse]

theorem string_data_inj {a b : String} (h : a.data = b.data) : a = b := by
  cases a; cases b; exact congrArg String.mk h

theorem verifySecret_hashSecret (x y salt : String) (hsalt : ∀ c ∈ salt.data, c ≠ '$') :
    verifySecret x (hashSecret y salt) = decide (y = x) := by
  have hdata : (hashSecret y salt).data =
      bcryptIdent.data ++ (salt.data ++ '$' :: ([] ++ y.data)) := by
    simp [hashSecret, String.data_append]
  have h1 : dropLead bcryptIdent.data (hashSecret y salt).data =
      some (salt.data ++ '$' :: ([] ++ y.data)) := by
    rw [hdata]; exact dropLead_append _ _
  have h2 : splitFirst ['$'] (salt.data ++ '$' :: ([] ++ y.data)) =
      some (salt.data, y.data) := by
    simpa using splitFirst_boundary '$' [] salt.data y.data hsalt
  simp only [verifySecret, h1, h2]
  by_cases he : y = x
  · simp [he]
  · have hne : y.data ≠ x.data := fun hd => he (string_data_inj hd)
    simp [he, hne]

theorem verifySecret_empty (secret : String) : verifySecret secret "" = false := rfl

/-- C1: for every record carrying a current and a previous hash, `verify_key`
returns exactly `current_ok OR previous_ok`, where `current_ok` verifies the
presented secret against the current hash when the record is active (against the
dummy empty hash otherwise) and `previous_ok` verifies it against the previous hash
when the rotation policy accepts the previous secret (against the same dummy hash
otherwise). -/
theorem verify_key_is_or_of_both_checks
    (m : APIKeyInternalResponseModel) (now : Int) (k ch ph : String)
    (hc : m.key = some ch) (hp : m.previous_key = some ph) :
    m.verify_key now k =
      (verifySecret k (if m.active then ch else "") ||
        verifySecret k (if previous_secret_is_valid m now then ph else "")) := by
  simp only [APIKeyInternalResponseModel.verify_key, previous_secret_is_valid, hc, hp]
  by_cases ha : m.active = true <;>
    by_cases hr : (0 : Int) < m.retain_period_minutes <;>
      by_cases hw : now - m.last_rotated < timedeltaMinutes m.retain_period_minutes <;>
        simp [ha, hr, hw]

theorem verify_key_is_or_of_both_checks_witness :
    sampleInternal.key = some (hashSecret "S1" "ab") ∧
    sampleInternal.previous_key = some (hashSecret "S0" "cd") ∧
    sampleInternal.verify_key 3 "S0" =
      (verifySecret "S0" (if sampleInternal.active then hashSecret "S1" "ab" else "") ||
        verifySecret "S0" (if previous_secret_is_valid sampleInternal 3
          then hashSecret "S0" "cd" else "")) :=
  ⟨rfl, rfl, verify_key_is_or_of_both_checks sampleInternal 3 "S0" _ _ rfl rfl⟩

/-- C2: for every record with `active = false`, verification of any presented
secret returns `false`, whatever the other fields hold. -/
theorem verify_key_inactive_false (m : APIKeyInternalResponseModel) (now : Int)
    (k : String) (h : m.active = false) : m.verify_key now k = false := by
  cases hk : m.key <;>
    cases hp : m.previous_key <;>
      simp [APIKeyInternalResponseModel.verify_key, h, hk, hp, verifySecret_empty]

theorem verify_key_inactive_false_witness :
    inactiveInternal.active = false ∧ inactiveInternal.verify_key 0 "T1" = false :=
  ⟨rfl, verify_key_inactive_false inactiveInternal 0 "T1" rfl⟩

/-- C3: the previous secret is accepted by verification iff the record is active,
the retain period is positive and `now - last_rotated` is strictly below the retain
period; and rotation records `last_rotated` as the rotation time. -/
theorem previous_secret_acceptance
    (m : APIKeyInternalResponseModel) (now : Int) (k ch ph : String)
    (hc : m.key = some ch) (hp : m.previous_key = some ph)
    (hprev : verifySecret k ph = true) (hcur : verifySecret k ch = false) :
    (m.verify_key now k = true ↔
      (m.active = true ∧ 0 < m.retain_period_minutes ∧
        now - m.last_rotated < timedeltaMinutes m.retain_period_minutes)) ∧
    ∀ (s : APIKeySchema) (req : APIKeyRotateRequestModel) (t : Int) (nk salt : String),
      (s.rotate req t nk salt).1.last_rotated = t := by
  constructor
  · simp only [APIKeyInternalResponseModel.verify_key, hc, hp]
    by_cases ha : m.active = true <;>
      by_cases hr : (0 : Int) < m.retain_period_minutes <;>
        by_cases hw : now - m.last_rotated < timedeltaMinutes m.retain_period_minutes <;>
          simp [ha, hr, hw, hprev, hcur, verifySecret_empty]
  · intro s req t nk salt
    rfl

theorem previous_secret_acceptance_witness :
    sampleInternal.key = some (hashSecret "S1" "ab") ∧
    sampleInternal.previous_key = some (hashSecret "S0" "cd") ∧
    verifySecret "S0" (hashSecret "S0" "cd") = true ∧
    verifySecret "S0" (hashSecret "S1" "ab") = false ∧
    (sampleInternal.verify_key 3 "S0" = true ↔
      (sampleInternal.active = true ∧ 0 < sampleInternal.retain_period_minutes ∧
        3 - sampleInternal.last_rotated <
          timedeltaMinutes sampleInternal.retain_period_minutes)) ∧
    (sampleSchema.rotate { retain_period_minutes := 10 } 5 "S2" "ef").1.last_rotated = 5 := by
  have h := previous_secret_acceptance sampleInternal 3 "S0" _ _ rfl rfl
    (by decide) (by decide)
  exact ⟨rfl, rfl, by decide, by decide, h.1,
    h.2 sampleSchema { retain_period_minutes := 10 } 5 "S2" "ef"⟩

/-- C4: rotating with a zero retain period still records the old current hash in
the previous slot, yet the old secret no longer verifies at any time after the
rotation. -/
theorem rotate_retain_zero_blocks_old
    (s : APIKeySchema) (t now : Int) (oldRaw newRaw salt : String)
    (hne : newRaw ≠ oldRaw) (hsalt : ∀ c ∈ salt.data, c ≠ '$') :
    (s.rotate { retain_period_minutes := 0 } t newRaw salt).1.previous_key = some s.key ∧
    ((s.rotate { retain_period_minutes := 0 } t newRaw salt).1.to_internal_model).verify_key
        now oldRaw = false := by
  refine ⟨rfl, ?_⟩
  have hv : verifySecret oldRaw (hashSecret newRaw salt) = false := by
    rw [verifySecret_hashSecret _ _ _ hsalt]
    simp [hne]
  by_cases ha : s.active = true <;>
    simp [APIKeySchema.rotate, APIKeySchema.to_internal_model,
      APIKeyInternalResponseModel.verify_key, ha, hv, verifySecret_empty]

theorem rotate_retain_zero_blocks_old_witness :
    ("S2" : String) ≠ "S1" ∧ (∀ c ∈ ("ef" : String).data, c ≠ '$') ∧
    (sampleSchema.rotate { retain_period_minutes := 0 } 5 "S2" "ef").1.previous_key
      = some sampleSchema.key ∧
    ((sampleSchema.rotate { retain_period_minutes := 0 } 5 "S2" "ef").1.to_internal_model).verify_key
        6 "S1" = false := by
  have h := rotate_retain_zero_blocks_old sampleSchema 5 6 "S1" "S2" "ef"
    (by decide) (by decide)
  exact ⟨by decide, by decide, h.1, h.2⟩

/-- C5: at the concrete failing input — a stored key for secret `S1` that verifies
beforehand, rotated through the CLI command with `--retain 10` — the rotated row
keeps a retain period of `0` minutes (the CLI never forwards `retain` to the
client), so the old secret fails verification immediately, contrary to the CLI's
own output that the previous key remains valid for ten minutes. -/
theorem cli_rotate_drops_retain :
    (sampleSchema.to_internal_model).verify_key 0 "S1" = true ∧
    (rotate_api_key 10 sampleSchema 5 "S2" "cd").1.retain_period = 0 ∧
    ((rotate_api_key 10 sampleSchema 5 "S2" "cd").1.to_internal_model).verify_key 5 "S1"
      = false := by
  refine ⟨?_, rfl, ?_⟩ <;> decide

/-- C6: decoding an encoded bearer token yields back exactly the id and the raw
secret, for every ASCII id free of quote characters and every ASCII secret (which
covers all valid uuid strings and `token_hex` secrets). -/
theorem decode_encode_roundtrip (i k : String)
    (hi : ∀ c ∈ i.data, c.toNat < 128 ∧ c ≠ '"')
    (hk : ∀ c ∈ k.data, c.toNat < 128) :
    APIKey.decode_api_key (APIKey.encode { id := i, key := k }) =
      Except.ok { id := i, key := k } :=
  decode_encode_aux i k hi hk

theorem decode_encode_roundtrip_witness :
    (∀ c ∈ ("0a1b" : String).data, c.toNat < 128 ∧ c ≠ '"') ∧
    (∀ c ∈ ("53cr3t" : String).data, c.toNat < 128) ∧
    APIKey.decode_api_key (APIKey.encode { id := "0a1b", key := "53cr3t" }) =
      Except.ok { id := "0a1b", key := "53cr3t" } :=
  ⟨by decide, by decide, decode_encode_roundtrip "0a1b" "53cr3t" (by decide) (by decide)⟩

/-- C7: on every input, decoding either succeeds or yields the one generic
`Invalid API key.` error, whose content is the same whatever the structural cause
of the failure was. -/
theorem decode_failure_single_generic_error (s : String) :
    (∃ a : APIKey, APIKey.decode_api_key s = Except.ok a) ∨
    APIKey.decode_api_key s = Except.error "Invalid API key." := by
  cases h : (b64_decode s).bind parseApiKeyJson with
  | none =>
    right
    simp [APIKey.decode_api_key, h]
  | some p =>
    obtain ⟨i, k⟩ := p
    left
    exact ⟨{ id := i, key := k }, by simp [APIKey.decode_api_key, h]⟩

/-- C8: the hasher's verify returns `false` (and, being a total function, cannot
raise) on the empty dummy hash and on any value without the bcrypt format marker;
in particular a record with no hash in either slot verifies `false` for every
presented secret. -/
theorem verify_dummy_and_malformed_false :
    (∀ k : String, verifySecret k "" = false) ∧
    (∀ k h : String, dropLead bcryptIdent.data h.data = none → verifySecret k h = false) ∧
    (∀ (m : APIKeyInternalResponseModel) (now : Int) (k : String),
      m.key = none → m.previous_key = none → m.verify_key now k = false) := by
  refine ⟨fun k => verifySecret_empty k, fun k h hm => ?_, fun m now k hk hp => ?_⟩
  · simp [verifySecret, hm]
  · simp [APIKeyInternalResponseModel.verify_key, hk, hp, verifySecret_empty]

theorem verify_dummy_and_malformed_false_witness :
    verifySecret "x" "" = false ∧
    (dropLead bcryptIdent.data ("nothash" : String).data = none ∧
      verifySecret "x" "nothash" = false) ∧
    (emptyInternal.key = none ∧ emptyInternal.previous_key = none ∧
      emptyInternal.verify_key 0 "x" = false) :=
  ⟨verify_dummy_and_malformed_false.1 "x",
    ⟨by decide, verify_dummy_and_malformed_false.2.1 "x" "nothash" (by decide)⟩,
    ⟨rfl, rfl, verify_dummy_and_malformed_false.2.2 emptyInternal 0 "x" rfl rfl⟩⟩

/-- C9: a plain update changes only the supplied fields among name, description
and active; the hash slots, retain period, `last_used` and `last_rotated` keep
their previous values. -/
theorem update_only_supplied_fields (s : APIKeySchema) (u : APIKeyUpdateModel)
    (now : Int) :
    (s.update u now).key = s.key ∧
    (s.update u now).previous_key = s.previous_key ∧
    (s.update u now).retain_period = s.retain_period ∧
    (s.update u now).last_used = s.last_used ∧
    (s.update u now).last_rotated = s.last_rotated ∧
    (u.name = none → (s.update u now).name = s.name) ∧
    (u.description = none → (s.update u now).description = s.description) ∧
    (u.active = none → (s.update u now).active = s.active) := by
  obtain ⟨un, ud, ua⟩ := u
  cases un <;> cases ud <;> cases ua <;>
    simp only [APIKeySchema.update] <;> (try split_ifs) <;> simp

theorem update_only_supplied_fields_witness :
    (sampleSchema.update { name := none, description := none, active := none } 7).key
      = sampleSchema.key ∧
    (sampleSchema.update { name := none, description := none, active := none } 7).previous_key
      = sampleSchema.previous_key ∧
    (sampleSchema.update { name := none, description := none, active := none } 7).retain_period
      = sampleSchema.retain_period ∧
    (sampleSchema.update { name := none, description := none, active := none } 7).last_used
      = sampleSchema.last_used ∧
    (sampleSchema.update { name := none, description := none, active := none } 7).last_rotated
      = sampleSchema.last_rotated ∧
    (sampleSchema.update { name := none, description := none, active := none } 7).name
      = sampleSchema.name ∧
    (sampleSchema.update { name := none, description := none, active := none } 7).description
      = sampleSchema.description ∧
    (sampleSchema.update { name := none, description := none, active := none } 7).active
      = sampleSchema.active := by
  have h := update_only_supplied_fields sampleSchema
    { name := none, description := none, active := none } 7
  exact ⟨h.1, h.2.1, h.2.2.1, h.2.2.2.1, h.2.2.2.2.1, h.2.2.2.2.2.1 rfl,
    h.2.2.2.2.2.2.1 rfl, h.2.2.2.2.2.2.2 rfl⟩

/-- C10: `set_key` stores the encoded bearer token (not the bare raw secret), and
decoding the stored value yields the record's id together with the raw secret. -/
theorem set_key_stores_encoded_token (m : APIKeyResponseModel) (raw : String)
    (hi : ∀ c ∈ m.id.data, c.toNat < 128 ∧ c ≠ '"')
    (hk : ∀ c ∈ raw.data, c.toNat < 128) :
    (m.set_key raw).key = some (APIKey.encode { id := m.id, key := raw }) ∧
    APIKey.decode_api_key (APIKey.encode { id := m.id, key := raw }) =
      Except.ok { id := m.id, key := raw } :=
  ⟨rfl, decode_encode_aux m.id raw hi hk⟩

theorem set_key_stores_encoded_token_witness :
    (∀ c ∈ sampleResponse.id.data, c.toNat < 128 ∧ c ≠ '"') ∧
    (∀ c ∈ ("53cr" : String).data, c.toNat < 128) ∧
    (sampleResponse.set_key "53cr").key
      = some (APIKey.encode { id := sampleResponse.id, key := "53cr" }) ∧
    APIKey.decode_api_key (APIKey.encode { id := sampleResponse.id, key := "53cr" }) =
      Except.ok { id := sampleResponse.id, key := "53cr" } := by
  have h := set_key_stores_encoded_token sampleResponse "53cr" (by decide) (by decide)
  exact ⟨by decide, by decide, h.1, h.2⟩

end Zenml
